import Mathlib

/-!
Verification of the decision validation / trade execution core of
`lighter-background-service-standalone.js` (class constructor state,
`resetDailyStats`, the `onSnapshot` decision-listener callback inside
`startDecisionListener`, `processDecision`, `validateDecision`,
`executeTrade`).

Numbers of the source (JS doubles used for money, confidence, prices) are
embedded as `ℚ`; wall-clock instants (`Date.now()`) and the decision
`timestamp` field as `Int`.  Network effects (market-price fetch, the order
gateway, a thrown exception) are passed in as explicit inputs.  Firestore
log writes are returned as a list of log entries (the model assumes the
Firestore handle `this.db` is available, which is the precondition for the
listener to run at all).
-/

namespace LighterService

/-- A trading decision document (`agentDecisions/RL80`).  `action` is a plain
string in the source (compared against the literals `BUY`, `SELL`, `HOLD`,
`EMERGENCY_STOP`); `position_size` is an optional numeric field, absent when
the document does not carry it. -/
structure Decision where
  action : String
  symbol : String
  confidence : ℚ
  reasoning : String
  timestamp : Int
  position_size : Option ℚ
deriving DecidableEq, Repr

/-- `this.tradingState` — the mutable process-wide counters.  The source also
carries two `Map` fields (`positions`, `pendingOrders`) that are never read or
written by the functions modelled here; they are omitted. -/
structure TradingState where
  lastTradeTime : Int
  dailyTradeCount : Nat
  dailyPnL : ℚ
  lastDecisionId : Option Int
  tradingHalted : Bool
  haltReason : Option String
deriving DecidableEq, Repr

/-- `this.tradingConfig`, loaded once in the constructor. -/
structure TradingConfig where
  enabled : Bool
  maxPositionSizeUSD : ℚ
  maxDailyTrades : Nat
  maxDailyLossUSD : ℚ
  minConfidence : ℚ
  allowedSymbols : List String
  cooldownMs : Int
deriving DecidableEq, Repr

/-- The two credential fields of `this.lighterConfig` read by
`validateDecision` check 8.  Each comes from an environment variable and may
be undefined (`none`) or set to a string. -/
structure LighterConfig where
  apiKey : Option String
  walletPrivateKey : Option String
deriving DecidableEq, Repr

/-- JS truthiness of an optional string: `undefined` and `""` are falsy. -/
def strTruthy : Option String → Bool
  | some s => s ≠ ""
  | none => false

/-- The initial `this.tradingState` set up in the constructor. -/
def initialTradingState : TradingState :=
  { lastTradeTime := 0
    dailyTradeCount := 0
    dailyPnL := 0
    lastDecisionId := none
    tradingHalted := false
    haltReason := none }

/-- `this.tradingConfig` with every environment variable unset: the defaults
`TRADING_ENABLED` false, `MAX_POSITION_SIZE_USD` 100, `MAX_DAILY_TRADES` 10,
`MAX_DAILY_LOSS_USD` 50, `MIN_TRADE_CONFIDENCE` 0.6, symbols ETH/BTC,
`TRADE_COOLDOWN_MS` 300000. -/
def defaultTradingConfig : TradingConfig :=
  { enabled := false
    maxPositionSizeUSD := 100
    maxDailyTrades := 10
    maxDailyLossUSD := 50
    minConfidence := mkRat 6 10
    allowedSymbols := ["ETH", "BTC"]
    cooldownMs := 300000 }

/-- Whether `pat` occurs at the head of `hay`. -/
def charsStart : List Char → List Char → Bool
  | _, [] => true
  | [], _ :: _ => false
  | h :: hs, p :: ps => h = p && charsStart hs ps

/-- Whether `pat` occurs anywhere in `hay`. -/
def charsContain (hay pat : List Char) : Bool :=
  match hay with
  | [] => pat.isEmpty
  | _ :: rest => charsStart hay pat || charsContain rest pat

/-- JS `String.prototype.includes(pat)`: the case-sensitive substring
test. -/
def strIncludes (s pat : String) : Bool :=
  charsContain s.toList pat.toList

/-- `resetDailyStats()` — zero the daily counters; clear the halt only when
trading is halted and the halt reason contains the (lower-case) substring
`"daily"` (`this.tradingState.haltReason?.includes('daily')`). -/
def resetDailyStats (st : TradingState) : TradingState :=
  let st1 := { st with dailyTradeCount := 0, dailyPnL := 0 }
  if st1.tradingHalted && (match st1.haltReason with
      | some r => strIncludes r "daily"
      | none => false) then
    { st1 with tradingHalted := false, haltReason := none }
  else
    st1

/-- The reason component of `validateDecision`'s rejection object.  The
source formats each rejection as a distinct string template; the templates
are in one-to-one correspondence with these constructors, which also record
the data interpolated into them where a claim depends on it. -/
inductive RejectReason where
  | tradingHalted (haltReason : Option String)
  | invalidAction (action : String)
  | symbolNotAllowed (symbol : String)
  | confidenceTooLow
  | dailyTradeLimit
  | dailyLossLimit
  | cooldownActive
  | keysNotConfigured
deriving DecidableEq, Repr

/-- `validateDecision(decision)` — the eight safety checks, in source order.
Returns the first rejection reason (or `none` for valid) together with the
trading state after the call: check 6 (daily loss) is the one check that
mutates the state, setting `tradingHalted` and
`haltReason = 'Daily loss limit reached'` before rejecting.  `now` stands for
the `Date.now()` read in the cooldown check. -/
def validateDecision (d : Decision) (st : TradingState) (cfg : TradingConfig)
    (lcfg : LighterConfig) (now : Int) : Option RejectReason × TradingState :=
  if st.tradingHalted then
    (some (.tradingHalted st.haltReason), st)
  else if ¬ d.action ∈ (["BUY", "SELL"] : List String) then
    (some (.invalidAction d.action), st)
  else if ¬ d.symbol ∈ cfg.allowedSymbols then
    (some (.symbolNotAllowed d.symbol), st)
  else if d.confidence < cfg.minConfidence then
    (some .confidenceTooLow, st)
  else if cfg.maxDailyTrades ≤ st.dailyTradeCount then
    (some .dailyTradeLimit, st)
  else if st.dailyPnL ≤ -cfg.maxDailyLossUSD then
    (some .dailyLossLimit,
      { st with tradingHalted := true, haltReason := some "Daily loss limit reached" })
  else if now - st.lastTradeTime < cfg.cooldownMs then
    (some .cooldownActive, st)
  else if ¬ (strTruthy lcfg.apiKey ∧ strTruthy lcfg.walletPrivateKey) then
    (some .keysNotConfigured, st)
  else
    (none, st)

/-- Position sizing inside `executeTrade`: the confidence-adjusted size is
`maxPositionSizeUSD * confidence`; `position_size || confidenceAdjustedSize`
falls back to it when the override is absent or `0` (JS falsiness); the
result is capped at `maxPositionSizeUSD` and converted to a token amount by
dividing by the fetched price.  Returns `(finalSizeUSD, tokenAmount)`. -/
def executeTradeSizing (d : Decision) (cfg : TradingConfig) (price : ℚ) : ℚ × ℚ :=
  let maxSize := cfg.maxPositionSizeUSD
  let confidenceAdjustedSize := maxSize * d.confidence
  let positionSizeUSD := match d.position_size with
    | some v => if v = 0 then confidenceAdjustedSize else v
    | none => confidenceAdjustedSize
  let finalSizeUSD := min positionSizeUSD maxSize
  (finalSizeUSD, finalSizeUSD / price)

/-- What the order gateway (`axios.post` to Lighter) did: the promise
resolved with `data.success !== false` (carrying an optional `order_id`),
resolved with `data.success === false` (carrying an optional error message),
or threw (timeout / transport / HTTP error, caught by the `catch`). -/
inductive GatewayResponse where
  | ok (orderId : Option Int)
  | rejectedTx (errMsg : Option String)
  | exn (msg : String)
deriving DecidableEq, Repr

/-- The object `executeTrade` resolves with. -/
structure ExecResult where
  success : Bool
  orderId : Option Int
  size : Option ℚ
  price : Option ℚ
  error : Option String
deriving DecidableEq, Repr

/-- `executeTrade(decision)` — fetch the price (`priceData = none` models
`getMarketPrice` returning null), size the position, submit once to the
gateway, and map the gateway outcome to a result object.  `clientOrderIndex`
stands for the `Date.now()` used as `client_order_index`.  No retry occurs on
any path. -/
def executeTrade (d : Decision) (cfg : TradingConfig) (priceData : Option ℚ)
    (gw : GatewayResponse) (clientOrderIndex : Int) : ExecResult :=
  match priceData with
  | none =>
      { success := false, orderId := none, size := none, price := none
        error := some "Could not fetch market price" }
  | some price =>
      let sizing := executeTradeSizing d cfg price
      match gw with
      | .ok oid =>
          { success := true
            orderId := some (oid.getD clientOrderIndex)
            size := some sizing.2
            price := some price
            error := none }
      | .rejectedTx e =>
          { success := false, orderId := none, size := none, price := none
            error := some (e.getD "Unknown error from Lighter") }
      | .exn m =>
          { success := false, orderId := none, size := none, price := none
            error := some m }

/-- What one `processDecision` run observed from `await this.executeTrade`:
either the result object it resolved with, or an exception reaching the
surrounding `catch`. -/
inductive ExecOutcome where
  | result (r : ExecResult)
  | thrown (msg : String)
deriving DecidableEq, Repr

/-- The `status` strings written by `logTradeDecision`. -/
inductive LogStatus where
  | received
  | rejected
  | simulated
  | executed
  | failed
  | error
  | emergencyStop
deriving DecidableEq, Repr

/-- One `logTradeDecision` call: the status, the rejection reason (for
`rejected`), the error message (for `failed`/`error`), and the result object
(for `executed`). -/
structure LogEntry where
  status : LogStatus
  rejectReason : Option RejectReason
  errMsg : Option String
  result : Option ExecResult
deriving DecidableEq, Repr

def logReceived : LogEntry := ⟨.received, none, none, none⟩

def logSimulated : LogEntry := ⟨.simulated, none, none, none⟩

/-- Result of one `processDecision` call: the trading state afterwards, the
log entries written in order, whether `validateDecision` was invoked, and how
many times `executeTrade` was invoked (0 or 1 — the source has no retry
loop). -/
structure ProcResult where
  state : TradingState
  logs : List LogEntry
  invokedValidate : Bool
  executorInvocations : Nat
deriving DecidableEq, Repr

/-- `processDecision(decision)`.  `now` stands for the `Date.now()` reads of
this run (both the cooldown read inside validation and the
`lastTradeTime = Date.now()` on success); `exec` is the observed outcome of
the `executeTrade` call, consumed only if that call is reached. -/
def processDecision (d : Decision) (st : TradingState) (cfg : TradingConfig)
    (lcfg : LighterConfig) (now : Int) (exec : ExecOutcome) : ProcResult :=
  let logs := [logReceived]
  if d.action = "HOLD" ∨ d.action = "EMERGENCY_STOP" then
    if d.action = "EMERGENCY_STOP" then
      let stHalted :=
        { st with tradingHalted := true,
                  haltReason := some ("Emergency stop: " ++ d.reasoning) }
      { state := stHalted
        logs := logs ++ [⟨.emergencyStop, none, none, none⟩]
        invokedValidate := false
        executorInvocations := 0 }
    else
      { state := st, logs := logs, invokedValidate := false, executorInvocations := 0 }
  else
    match validateDecision d st cfg lcfg now with
    | (some r, st1) =>
        { state := st1, logs := logs ++ [⟨.rejected, some r, none, none⟩]
          invokedValidate := true, executorInvocations := 0 }
    | (none, st1) =>
        if cfg.enabled = false then
          { state := st1, logs := logs ++ [logSimulated]
            invokedValidate := true, executorInvocations := 0 }
        else
          match exec with
          | .thrown m =>
              { state := st1, logs := logs ++ [⟨.error, none, some m, none⟩]
                invokedValidate := true, executorInvocations := 1 }
          | .result r =>
              if r.success then
                let stTraded :=
                  { st1 with lastTradeTime := now,
                             dailyTradeCount := st1.dailyTradeCount + 1 }
                { state := stTraded
                  logs := logs ++ [⟨.executed, none, none, some r⟩]
                  invokedValidate := true, executorInvocations := 1 }
              else
                { state := st1, logs := logs ++ [⟨.failed, none, r.error, none⟩]
                  invokedValidate := true, executorInvocations := 1 }

/-- Result of one delivery to the `onSnapshot` callback: as `ProcResult`,
plus whether the decision passed the dedupe gate and was processed. -/
structure SnapshotResult where
  state : TradingState
  logs : List LogEntry
  invokedValidate : Bool
  executorInvocations : Nat
  processed : Bool
deriving DecidableEq, Repr

/-- The `onSnapshot` callback body of `startDecisionListener` for a delivered
decision: skip silently when `decision.timestamp === lastDecisionId`,
otherwise record `lastDecisionId = decision.timestamp` and run
`processDecision`. -/
def onDecisionSnapshot (d : Decision) (st : TradingState) (cfg : TradingConfig)
    (lcfg : LighterConfig) (now : Int) (exec : ExecOutcome) : SnapshotResult :=
  if some d.timestamp = st.lastDecisionId then
    { state := st, logs := [], invokedValidate := false
      executorInvocations := 0, processed := false }
  else
    let st1 := { st with lastDecisionId := some d.timestamp }
    let r := processDecision d st1 cfg lcfg now exec
    { state := r.state, logs := r.logs, invokedValidate := r.invokedValidate
      executorInvocations := r.executorInvocations, processed := true }

/-- The SafetyPolicy check list exactly as the spec lists it (§4.1, checks
1–8, first failing check wins, short-circuit), written with the spec's
wording of each condition.  To be compared with `validateDecision`, which is
transcribed from the source. -/
def specSafetyFirstRejection (d : Decision) (st : TradingState) (cfg : TradingConfig)
    (lcfg : LighterConfig) (now : Int) : Option RejectReason :=
  if st.tradingHalted then some (.tradingHalted st.haltReason)
  else if ¬ (d.action = "BUY" ∨ d.action = "SELL") then some (.invalidAction d.action)
  else if ¬ d.symbol ∈ cfg.allowedSymbols then some (.symbolNotAllowed d.symbol)
  else if d.confidence < cfg.minConfidence then some .confidenceTooLow
  else if cfg.maxDailyTrades ≤ st.dailyTradeCount then some .dailyTradeLimit
  else if st.dailyPnL ≤ -cfg.maxDailyLossUSD then some .dailyLossLimit
  else if now - st.lastTradeTime < cfg.cooldownMs then some .cooldownActive
  else if ¬ (strTruthy lcfg.apiKey ∧ strTruthy lcfg.walletPrivateKey) then
    some .keysNotConfigured
  else none

/-- One delivery from the decision source: the decision document, the
wall-clock instant of processing, and the observed executor outcome. -/
structure Delivery where
  decision : Decision
  now : Int
  exec : ExecOutcome
deriving DecidableEq, Repr

/-- A sequential run of the listener over a list of deliveries.  Returns the
final state and the timestamps of the decisions that passed dedupe and were
processed, in order. -/
def runListener (cfg : TradingConfig) (lcfg : LighterConfig) :
    List Delivery → TradingState → TradingState × List Int
  | [], st => (st, [])
  | dv :: rest, st =>
      let r := onDecisionSnapshot dv.decision st cfg lcfg dv.now dv.exec
      let tail := runListener cfg lcfg rest r.state
      (tail.1, (if r.processed then [dv.decision.timestamp] else []) ++ tail.2)

/-! Concrete instances used by examples and witnesses. -/

/-- A credentials record with both keys configured. -/
def lcfgOk : LighterConfig := ⟨some "k", some "w"⟩

/-- A plain BUY decision that passes every safety check against the fresh
state and the default configuration at `now = 300000`. -/
def dBuyOk : Decision := ⟨"BUY", "ETH", mkRat 9 10, "momentum", 1000, none⟩

/-- The default configuration with the kill switch on (`TRADING_ENABLED`
set). -/
def enabledTradingConfig : TradingConfig :=
  { defaultTradingConfig with enabled := true }

/-- C1 example input: a BUY decision failing both the confidence check
(confidence 0.3 < 0.6) and the cooldown check (1000 ms elapsed since the
epoch-zero `lastTradeTime` < 300000 ms). -/
def dLowConfEarly : Decision := ⟨"BUY", "ETH", mkRat 3 10, "momentum", 1000, none⟩

/-- The trading state produced by the daily-loss circuit breaker: what
check 6 of `validateDecision` writes when a fresh-but-losing state
(`dailyPnL = -60`) sees an otherwise-valid BUY decision. -/
def stAfterBreaker : TradingState :=
  (validateDecision dBuyOk { initialTradingState with dailyPnL := -60 }
    defaultTradingConfig lcfgOk 300000).2

/-- C2 counterexample input: three deliveries whose timestamps are 1, 2 and
then 1 again (HOLD decisions, so no trade side effects matter). -/
def dupDeliveries : List Delivery :=
  [⟨⟨"HOLD", "ETH", 1, "r", 1, none⟩, 0, .thrown "e"⟩,
   ⟨⟨"HOLD", "ETH", 1, "r", 2, none⟩, 0, .thrown "e"⟩,
   ⟨⟨"HOLD", "ETH", 1, "r", 1, none⟩, 0, .thrown "e"⟩]

/-- A state that has already processed the decision timestamp 1000. -/
def stSeen : TradingState := { initialTradingState with lastDecisionId := some 1000 }

/-- The trading states a running instance can be in: the constructor's
initial state, transformed by any number of decision deliveries and daily
resets (the only two places the source mutates `this.tradingState`). -/
inductive Reachable (cfg : TradingConfig) (lcfg : LighterConfig) : TradingState → Prop where
  | init : Reachable cfg lcfg initialTradingState
  | step (d : Decision) (now : Int) (exec : ExecOutcome) {st : TradingState} :
      Reachable cfg lcfg st →
      Reachable cfg lcfg (onDecisionSnapshot d st cfg lcfg now exec).state
  | reset {st : TradingState} :
      Reachable cfg lcfg st → Reachable cfg lcfg (resetDailyStats st)

/-- A low-confidence EMERGENCY_STOP decision for a symbol outside the
allow-list. -/
def dStop : Decision := ⟨"EMERGENCY_STOP", "XRP", mkRat 1 10, "flash crash", 2000, none⟩

/-- The spec's position-sizing example: confidence 0.5, no override. -/
def dBuyHalf : Decision := ⟨"BUY", "ETH", mkRat 1 2, "r", 1000, none⟩

/-- C7 counterexample decision: an explicit `position_size` of 0. -/
def dZeroOverride : Decision := ⟨"BUY", "ETH", mkRat 1 2, "r", 1000, some 0⟩

/-! Helper lemmas about `validateDecision`. -/

/-- `validateDecision` either leaves the state alone or (check 6 only)
halts it with the literal reason string `Daily loss limit reached`. -/
theorem validateDecision_snd (d : Decision) (st : TradingState) (cfg : TradingConfig)
    (lcfg : LighterConfig) (now : Int) :
    (validateDecision d st cfg lcfg now).2 = st ∨
      (validateDecision d st cfg lcfg now).2 =
        { st with tradingHalted := true, haltReason := some "Daily loss limit reached" } := by
  unfold validateDecision
  split_ifs <;> simp

/-- When validation accepts, the state is unchanged. -/
theorem validateDecision_valid_snd (d : Decision) (st : TradingState) (cfg : TradingConfig)
    (lcfg : LighterConfig) (now : Int)
    (h : (validateDecision d st cfg lcfg now).1 = none) :
    (validateDecision d st cfg lcfg now).2 = st := by
  unfold validateDecision at h ⊢
  split_ifs at h ⊢
  simp_all

/-- A HOLD or EMERGENCY_STOP action can never pass validation (check 1 or
check 2 fires). -/
theorem validateDecision_holdES (d : Decision) (st : TradingState) (cfg : TradingConfig)
    (lcfg : LighterConfig) (now : Int)
    (ha : d.action = "HOLD" ∨ d.action = "EMERGENCY_STOP") :
    (validateDecision d st cfg lcfg now).1 ≠ none := by
  unfold validateDecision
  split_ifs with h1 h2 <;> simp_all
  rcases ha with ha | ha <;> simp [ha] at h2

/-- `processDecision` never touches `dailyPnL` or `lastDecisionId`. -/
theorem processDecision_preserves (d : Decision) (st : TradingState) (cfg : TradingConfig)
    (lcfg : LighterConfig) (now : Int) (exec : ExecOutcome) :
    (processDecision d st cfg lcfg now exec).state.dailyPnL = st.dailyPnL ∧
      (processDecision d st cfg lcfg now exec).state.lastDecisionId = st.lastDecisionId := by
  rcases hval : validateDecision d st cfg lcfg now with ⟨fst, snd⟩
  have hsnd := validateDecision_snd d st cfg lcfg now
  rw [hval] at hsnd
  have hf : snd.dailyPnL = st.dailyPnL ∧ snd.lastDecisionId = st.lastDecisionId := by
    rcases hsnd with h | h <;> simp only at h <;> simp [h]
  unfold processDecision
  by_cases h1 : d.action = "HOLD" ∨ d.action = "EMERGENCY_STOP"
  · rw [if_pos h1]
    by_cases h2 : d.action = "EMERGENCY_STOP" <;> simp [h2]
  · rw [if_neg h1, hval]
    rcases fst with _ | r
    · by_cases he : cfg.enabled = false
      · simp [he, hf.1, hf.2]
      · rcases exec with r | m
        · by_cases hs : r.success = true <;> simp [he, hs, hf.1, hf.2]
        · simp [he, hf.1, hf.2]
    · simp [hf.1, hf.2]

/-- After any delivery, `lastDecisionId` holds that delivery's timestamp
(whether it was processed, or skipped because it already matched). -/
theorem onDecisionSnapshot_lastDecisionId (d : Decision) (st : TradingState)
    (cfg : TradingConfig) (lcfg : LighterConfig) (now : Int) (exec : ExecOutcome) :
    (onDecisionSnapshot d st cfg lcfg now exec).state.lastDecisionId = some d.timestamp := by
  unfold onDecisionSnapshot
  by_cases h : some d.timestamp = st.lastDecisionId
  · rw [if_pos h]; exact h.symm
  · rw [if_neg h]
    have hp := (processDecision_preserves d { st with lastDecisionId := some d.timestamp }
      cfg lcfg now exec).2
    simpa using hp

/-- A delivery never changes `dailyPnL`. -/
theorem onDecisionSnapshot_dailyPnL (d : Decision) (st : TradingState)
    (cfg : TradingConfig) (lcfg : LighterConfig) (now : Int) (exec : ExecOutcome) :
    (onDecisionSnapshot d st cfg lcfg now exec).state.dailyPnL = st.dailyPnL := by
  unfold onDecisionSnapshot
  by_cases h : some d.timestamp = st.lastDecisionId
  · rw [if_pos h]
  · rw [if_neg h]
    have hp := (processDecision_preserves d { st with lastDecisionId := some d.timestamp }
      cfg lcfg now exec).1
    simpa using hp

/-- C1: `validateDecision` applies the eight checks in exactly the spec's
order with the first failing check winning (it agrees everywhere with the
check list transcribed from the spec's words), and in particular an input
failing both the confidence check (4) and the cooldown check (7) is rejected
with the confidence reason. -/
theorem C1_safety_check_order :
    (∀ (d : Decision) (st : TradingState) (cfg : TradingConfig)
        (lcfg : LighterConfig) (now : Int),
      (validateDecision d st cfg lcfg now).1 = specSafetyFirstRejection d st cfg lcfg now) ∧
    (validateDecision dLowConfEarly initialTradingState defaultTradingConfig lcfgOk 1000).1 =
      some .confidenceTooLow ∧
    dLowConfEarly.confidence < defaultTradingConfig.minConfidence ∧
    1000 - initialTradingState.lastTradeTime < defaultTradingConfig.cooldownMs := by
  refine ⟨?_, by decide, by decide, by decide⟩
  intro d st cfg lcfg now
  unfold validateDecision specSafetyFirstRejection
  simp only [List.mem_cons, List.mem_singleton, List.not_mem_nil, or_false]
  split_ifs <;> rfl

/-- C3: the daily reset zeroes the counters, but the halt written by the
daily-loss circuit breaker survives it: the breaker writes the reason string
`Daily loss limit reached`, and the reset's case-sensitive substring test
looks for the lower-case `daily`, which that string does not contain.  So at
this concrete input the reset does not clear `tradingHalted`, contradicting
the reset's own intent. -/
theorem C3_reset_keeps_breaker_halt :
    strIncludes "Daily loss limit reached" "daily" = false ∧
    (validateDecision dBuyOk { initialTradingState with dailyPnL := -60 }
        defaultTradingConfig lcfgOk 300000).1 = some .dailyLossLimit ∧
    stAfterBreaker.tradingHalted = true ∧
    stAfterBreaker.haltReason = some "Daily loss limit reached" ∧
    (resetDailyStats stAfterBreaker).dailyTradeCount = 0 ∧
    (resetDailyStats stAfterBreaker).dailyPnL = 0 ∧
    (resetDailyStats stAfterBreaker).tradingHalted = true ∧
    (resetDailyStats stAfterBreaker).haltReason = some "Daily loss limit reached" := by
  decide

/-- C2 counterexample: on the delivery sequence with timestamps 1, 2, 1 the
listener processes timestamp 1 twice — dedupe only compares against the most
recently processed timestamp, so a timestamp seen before is processed again
once a different one intervenes. -/
theorem C2_counterexample_reprocessed_timestamp :
    (runListener defaultTradingConfig lcfgOk dupDeliveries initialTradingState).2 = [1, 2, 1] ∧
    List.count 1
      (runListener defaultTradingConfig lcfgOk dupDeliveries initialTradingState).2 = 2 := by
  decide

/-- C2 (amended): a delivered decision whose timestamp equals the most
recently processed one is discarded, so the processed-timestamp sequence of
any run never carries the same timestamp twice in a row (taking the incoming
`lastDecisionId` as the zeroth element); re-processing is only possible after
a different timestamp intervenes. -/
theorem C2_amended_dedupe_consecutive_only (cfg : TradingConfig) (lcfg : LighterConfig)
    (ds : List Delivery) (st : TradingState) :
    List.Chain' (fun a b => a ≠ b)
      (st.lastDecisionId.toList ++ (runListener cfg lcfg ds st).2) := by
  induction ds generalizing st with
  | nil =>
      cases h : st.lastDecisionId <;> simp [runListener]
  | cons dv rest ih =>
      by_cases h : some dv.decision.timestamp = st.lastDecisionId
      · have hskip : onDecisionSnapshot dv.decision st cfg lcfg dv.now dv.exec =
            { state := st, logs := [], invokedValidate := false
              executorInvocations := 0, processed := false } := by
          unfold onDecisionSnapshot
          rw [if_pos h]
        simp only [runListener, hskip]
        simpa using ih st
      · have hproc : (onDecisionSnapshot dv.decision st cfg lcfg dv.now dv.exec).processed
            = true := by
          unfold onDecisionSnapshot
          rw [if_neg h]
        have hid := onDecisionSnapshot_lastDecisionId dv.decision st cfg lcfg dv.now dv.exec
        have ih2 := ih (onDecisionSnapshot dv.decision st cfg lcfg dv.now dv.exec).state
        rw [hid] at ih2
        simp only [Option.toList_some, List.singleton_append] at ih2
        simp only [runListener, hproc, if_true]
        cases hlast : st.lastDecisionId with
        | none => simpa using ih2
        | some t =>
            have hne : t ≠ dv.decision.timestamp := by
              rw [hlast] at h
              intro he
              exact h (by rw [he])
            simpa [List.chain'_cons] using And.intro hne ih2

/-- C8: a delivered decision whose timestamp equals
`tradingState.lastDecisionId` is a silent no-op: the state is unchanged, no
log entry is written, and neither `validateDecision` nor `executeTrade`
runs. -/
theorem C8_duplicate_delivery_noop (d : Decision) (st : TradingState)
    (cfg : TradingConfig) (lcfg : LighterConfig) (now : Int) (exec : ExecOutcome)
    (h : st.lastDecisionId = some d.timestamp) :
    onDecisionSnapshot d st cfg lcfg now exec =
      { state := st, logs := [], invokedValidate := false
        executorInvocations := 0, processed := false } := by
  unfold onDecisionSnapshot
  rw [if_pos h.symm]

/-- C8 witness: the concrete duplicate delivery of `dBuyOk` (timestamp 1000)
against `stSeen` is a no-op. -/
theorem C8_duplicate_delivery_noop_witness :
    stSeen.lastDecisionId = some dBuyOk.timestamp ∧
    onDecisionSnapshot dBuyOk stSeen defaultTradingConfig lcfgOk 0 (.thrown "e") =
      { state := stSeen, logs := [], invokedValidate := false
        executorInvocations := 0, processed := false } :=
  ⟨rfl, C8_duplicate_delivery_noop dBuyOk stSeen defaultTradingConfig lcfgOk 0
    (.thrown "e") rfl⟩

/-- C9: in every reachable state `dailyPnL` is `0` (initialised to `0`,
re-zeroed by the reset, and never written anywhere else), so whenever
`maxDailyLossUSD` is positive — as the default 50 is — check 6 of
`validateDecision` can never fire: validation never rejects with the
daily-loss reason and never mutates the state, i.e. the automatic daily-loss
circuit breaker can never set `tradingHalted`. -/
theorem C9_dailyPnL_always_zero (cfg : TradingConfig) (lcfg : LighterConfig)
    (st : TradingState) (h : Reachable cfg lcfg st) :
    st.dailyPnL = 0 ∧
    (0 < cfg.maxDailyLossUSD → ∀ (d : Decision) (now : Int),
      (validateDecision d st cfg lcfg now).1 ≠ some .dailyLossLimit ∧
      (validateDecision d st cfg lcfg now).2 = st) := by
  have hz : st.dailyPnL = 0 := by
    induction h with
    | init => rfl
    | step d now exec _ ih =>
        rw [onDecisionSnapshot_dailyPnL]
        exact ih
    | reset _ _ =>
        simp only [resetDailyStats]
        split <;> rfl
  refine ⟨hz, fun hpos d now => ?_⟩
  have hno : ¬ st.dailyPnL ≤ -cfg.maxDailyLossUSD := by
    rw [hz]
    intro hle
    linarith
  unfold validateDecision
  split_ifs <;> simp_all

/-- C9 witness: the initial state at the default configuration (whose
`maxDailyLossUSD` is 50 > 0), checked against a concrete BUY decision. -/
theorem C9_dailyPnL_always_zero_witness :
    initialTradingState.dailyPnL = 0 ∧
    (validateDecision dBuyOk initialTradingState defaultTradingConfig lcfgOk 0).1 ≠
      some .dailyLossLimit ∧
    (validateDecision dBuyOk initialTradingState defaultTradingConfig lcfgOk 0).2 =
      initialTradingState := by
  have h := C9_dailyPnL_always_zero defaultTradingConfig lcfgOk initialTradingState
    Reachable.init
  exact ⟨h.1, (h.2 (by decide) dBuyOk 0).1, (h.2 (by decide) dBuyOk 0).2⟩

/-- When validation accepts, it returns literally `(none, st)`. -/
theorem validateDecision_valid_pair (d : Decision) (st : TradingState) (cfg : TradingConfig)
    (lcfg : LighterConfig) (now : Int)
    (hv : (validateDecision d st cfg lcfg now).1 = none) :
    validateDecision d st cfg lcfg now = (none, st) := by
  have hsnd := validateDecision_valid_snd d st cfg lcfg now hv
  rcases hq : validateDecision d st cfg lcfg now with ⟨f, s⟩
  rw [hq] at hv hsnd
  simp only at hv hsnd
  rw [hv, hsnd]

/-- C4: a decision that passes every safety check while the kill switch is
off (`enabled = false`) is logged as `simulated` and processing ends there:
`executeTrade` is never invoked and the trading state (in particular
`lastTradeTime` and `dailyTradeCount`) is unchanged. -/
theorem C4_kill_switch_simulated (d : Decision) (st : TradingState) (cfg : TradingConfig)
    (lcfg : LighterConfig) (now : Int) (exec : ExecOutcome)
    (hv : (validateDecision d st cfg lcfg now).1 = none)
    (he : cfg.enabled = false) :
    processDecision d st cfg lcfg now exec =
      { state := st, logs := [logReceived, logSimulated]
        invokedValidate := true, executorInvocations := 0 } := by
  have hpair := validateDecision_valid_pair d st cfg lcfg now hv
  have hne : ¬ (d.action = "HOLD" ∨ d.action = "EMERGENCY_STOP") := fun hh =>
    validateDecision_holdES d st cfg lcfg now hh hv
  unfold processDecision
  rw [if_neg hne, hpair]
  simp [he]

/-- C4 witness: `dBuyOk` passes every check against the fresh state at
`now = 300000` under the default (disabled) configuration, and is only
simulated. -/
theorem C4_kill_switch_simulated_witness :
    (validateDecision dBuyOk initialTradingState defaultTradingConfig lcfgOk 300000).1 = none ∧
    defaultTradingConfig.enabled = false ∧
    processDecision dBuyOk initialTradingState defaultTradingConfig lcfgOk 300000
        (.thrown "e") =
      { state := initialTradingState, logs := [logReceived, logSimulated]
        invokedValidate := true, executorInvocations := 0 } :=
  ⟨by decide, rfl,
    C4_kill_switch_simulated dBuyOk initialTradingState defaultTradingConfig lcfgOk 300000
      (.thrown "e") (by decide) rfl⟩

/-- C6: a non-duplicate EMERGENCY_STOP decision — whatever its confidence or
symbol — halts trading with the reason built from the decision's reasoning,
logs `emergency_stop`, and terminates without invoking `validateDecision` or
`executeTrade`. -/
theorem C6_emergency_stop_halts (d : Decision) (st : TradingState) (cfg : TradingConfig)
    (lcfg : LighterConfig) (now : Int) (exec : ExecOutcome)
    (hd : some d.timestamp ≠ st.lastDecisionId)
    (ha : d.action = "EMERGENCY_STOP") :
    (onDecisionSnapshot d st cfg lcfg now exec).state.tradingHalted = true ∧
    (onDecisionSnapshot d st cfg lcfg now exec).state.haltReason =
      some ("Emergency stop: " ++ d.reasoning) ∧
    (onDecisionSnapshot d st cfg lcfg now exec).logs =
      [logReceived, ⟨.emergencyStop, none, none, none⟩] ∧
    (onDecisionSnapshot d st cfg lcfg now exec).invokedValidate = false ∧
    (onDecisionSnapshot d st cfg lcfg now exec).executorInvocations = 0 ∧
    (onDecisionSnapshot d st cfg lcfg now exec).processed = true := by
  unfold onDecisionSnapshot
  rw [if_neg hd]
  unfold processDecision
  simp [ha]

/-- C6 witness: the concrete `dStop` decision against the fresh state. -/
theorem C6_emergency_stop_halts_witness :
    some dStop.timestamp ≠ initialTradingState.lastDecisionId ∧
    (onDecisionSnapshot dStop initialTradingState defaultTradingConfig lcfgOk 0
        (.thrown "e")).state.tradingHalted = true ∧
    (onDecisionSnapshot dStop initialTradingState defaultTradingConfig lcfgOk 0
        (.thrown "e")).state.haltReason = some "Emergency stop: flash crash" ∧
    (onDecisionSnapshot dStop initialTradingState defaultTradingConfig lcfgOk 0
        (.thrown "e")).executorInvocations = 0 := by
  have h := C6_emergency_stop_halts dStop initialTradingState defaultTradingConfig lcfgOk 0
    (.thrown "e") (by decide) rfl
  exact ⟨by decide, h.1, h.2.1, h.2.2.2.2.1⟩

/-- C5: inside the execution path (validation passed, trading enabled), a
successful `executeTrade` result — and only that — sets `lastTradeTime` to
the current time and increments `dailyTradeCount` by exactly one; a failed
result or a thrown exception only appends a `failed` / `error` log entry,
leaves the state untouched, and the executor is still invoked exactly once
(no retry).  In general, on every path whatsoever the two counters change
only when the (single) executor invocation returned success. -/
theorem C5_state_update_iff_success (d : Decision) (st : TradingState) (cfg : TradingConfig)
    (lcfg : LighterConfig) (now : Int)
    (hv : (validateDecision d st cfg lcfg now).1 = none)
    (he : cfg.enabled = true) :
    (∀ r : ExecResult, r.success = true →
      processDecision d st cfg lcfg now (.result r) =
        { state := { st with lastTradeTime := now, dailyTradeCount := st.dailyTradeCount + 1 }
          logs := [logReceived, ⟨.executed, none, none, some r⟩]
          invokedValidate := true, executorInvocations := 1 }) ∧
    (∀ r : ExecResult, r.success = false →
      processDecision d st cfg lcfg now (.result r) =
        { state := st, logs := [logReceived, ⟨.failed, none, r.error, none⟩]
          invokedValidate := true, executorInvocations := 1 }) ∧
    (∀ m : String,
      processDecision d st cfg lcfg now (.thrown m) =
        { state := st, logs := [logReceived, ⟨.error, none, some m, none⟩]
          invokedValidate := true, executorInvocations := 1 }) ∧
    (∀ (d2 : Decision) (st2 : TradingState) (cfg2 : TradingConfig) (lcfg2 : LighterConfig)
        (now2 : Int) (exec2 : ExecOutcome),
      ((processDecision d2 st2 cfg2 lcfg2 now2 exec2).state.lastTradeTime = st2.lastTradeTime ∧
        (processDecision d2 st2 cfg2 lcfg2 now2 exec2).state.dailyTradeCount
          = st2.dailyTradeCount) ∨
      (∃ r2 : ExecResult, exec2 = .result r2 ∧ r2.success = true ∧
        (processDecision d2 st2 cfg2 lcfg2 now2 exec2).state.lastTradeTime = now2 ∧
        (processDecision d2 st2 cfg2 lcfg2 now2 exec2).state.dailyTradeCount
          = st2.dailyTradeCount + 1 ∧
        (processDecision d2 st2 cfg2 lcfg2 now2 exec2).executorInvocations = 1)) := by
  have hpair := validateDecision_valid_pair d st cfg lcfg now hv
  have hne : ¬ (d.action = "HOLD" ∨ d.action = "EMERGENCY_STOP") := fun hh =>
    validateDecision_holdES d st cfg lcfg now hh hv
  refine ⟨fun r hr => ?_, fun r hr => ?_, fun m => ?_, fun d2 st2 cfg2 lcfg2 now2 exec2 => ?_⟩
  · unfold processDecision
    rw [if_neg hne, hpair]
    simp [he, hr]
  · unfold processDecision
    rw [if_neg hne, hpair]
    simp [he, hr]
  · unfold processDecision
    rw [if_neg hne, hpair]
    simp [he]
  · rcases hval2 : validateDecision d2 st2 cfg2 lcfg2 now2 with ⟨f2, s2⟩
    have hsnd2 := validateDecision_snd d2 st2 cfg2 lcfg2 now2
    rw [hval2] at hsnd2
    have hf2 : s2.lastTradeTime = st2.lastTradeTime ∧
        s2.dailyTradeCount = st2.dailyTradeCount := by
      rcases hsnd2 with hh | hh <;> simp only at hh <;> simp [hh]
    unfold processDecision
    by_cases h1 : d2.action = "HOLD" ∨ d2.action = "EMERGENCY_STOP"
    · left
      rw [if_pos h1]
      by_cases h2 : d2.action = "EMERGENCY_STOP" <;> simp [h2]
    · rw [if_neg h1, hval2]
      rcases f2 with _ | r2
      · by_cases he2 : cfg2.enabled = false
        · left
          simp [he2, hf2.1, hf2.2]
        · rcases exec2 with r2 | m2
          · by_cases hs : r2.success = true
            · right
              exact ⟨r2, rfl, hs, by simp [he2, hs], by simp [he2, hs, hf2.2],
                by simp [he2, hs]⟩
            · left
              simp [he2, hs, hf2.1, hf2.2]
          · left
            simp [he2, hf2.1, hf2.2]
      · left
        simp [hf2.1, hf2.2]

/-- The configuration used by C5's witness: defaults with trading enabled. -/
theorem C5_state_update_iff_success_witness :
    (validateDecision dBuyOk initialTradingState enabledTradingConfig lcfgOk 300000).1 = none ∧
    enabledTradingConfig.enabled = true ∧
    processDecision dBuyOk initialTradingState enabledTradingConfig lcfgOk 300000
        (.result ⟨true, some 7, some 1, some 50000, none⟩) =
      { state := { initialTradingState with lastTradeTime := 300000, dailyTradeCount := 1 }
        logs := [logReceived, ⟨.executed, none, none,
          some ⟨true, some 7, some 1, some 50000, none⟩⟩]
        invokedValidate := true, executorInvocations := 1 } := by
  have h := C5_state_update_iff_success dBuyOk initialTradingState enabledTradingConfig lcfgOk
    300000 (by decide) rfl
  exact ⟨by decide, rfl, h.1 ⟨true, some 7, some 1, some 50000, none⟩ rfl⟩

/-- C7 counterexample: with an explicit override of 0 present, the claim's
formula `min(override, maxPositionSizeUSD)` gives a notional of 0, but the
code's `position_size || confidenceAdjustedSize` treats the 0 override as
absent and computes the confidence-adjusted notional of 50. -/
theorem C7_counterexample_zero_override :
    (executeTradeSizing dZeroOverride defaultTradingConfig 50000).1 = 50 ∧
    min (Option.getD dZeroOverride.position_size
        (defaultTradingConfig.maxPositionSizeUSD * dZeroOverride.confidence))
      defaultTradingConfig.maxPositionSizeUSD = 0 ∧
    (50 : ℚ) ≠ 0 := by
  refine ⟨?_, ?_, by norm_num⟩
  · norm_num [executeTradeSizing, dZeroOverride, defaultTradingConfig, mkRat, min_def]
  · norm_num [dZeroOverride, defaultTradingConfig, min_def]

/-- C7 (amended): for every trade, the USD notional is
`min(positionSizeOverride, maxPositionSizeUSD)` when a nonzero override is
present and `min(maxPositionSizeUSD * confidence, maxPositionSizeUSD)`
otherwise (a zero override counts as absent), the quantity is the notional
divided by the fetched price, and a successful `executeTrade` reports exactly
that quantity and price; in particular `maxPositionSizeUSD = 100`,
confidence 0.5, no override, price 50000 give notional 50 and quantity
0.001. -/
theorem C7_position_sizing (d : Decision) (cfg : TradingConfig) (price : ℚ)
    (h : d.position_size ≠ some 0) :
    executeTradeSizing d cfg price =
      (min (Option.getD d.position_size (cfg.maxPositionSizeUSD * d.confidence))
          cfg.maxPositionSizeUSD,
        min (Option.getD d.position_size (cfg.maxPositionSizeUSD * d.confidence))
          cfg.maxPositionSizeUSD / price) ∧
    executeTradeSizing dBuyHalf defaultTradingConfig 50000 = (50, mkRat 1 1000) ∧
    (∀ (oid : Option Int) (coi : Int),
      (executeTrade d cfg (some price) (.ok oid) coi).size =
        some (executeTradeSizing d cfg price).2 ∧
      (executeTrade d cfg (some price) (.ok oid) coi).price = some price ∧
      (executeTrade d cfg (some price) (.ok oid) coi).success = true) := by
  refine ⟨?_, ?_, fun oid coi => by simp [executeTrade]⟩
  · rcases hp : d.position_size with _ | v
    · simp [executeTradeSizing, hp]
    · have hv : ¬ v = 0 := by
        rintro rfl
        exact h hp
      simp [executeTradeSizing, hp, hv]
  · have : min (mkRat 1 2 * 100) (100 : ℚ) = 50 := by
      norm_num [mkRat, min_def]
    norm_num [executeTradeSizing, dBuyHalf, defaultTradingConfig, mkRat, min_def]

/-- C7 witness: the amended sizing law applied to the spec's example
decision. -/
theorem C7_position_sizing_witness :
    dBuyHalf.position_size ≠ some 0 ∧
    executeTradeSizing dBuyHalf defaultTradingConfig 50000 = (50, mkRat 1 1000) ∧
    (executeTrade dBuyHalf defaultTradingConfig (some 50000) (.ok none) 7).success = true :=
  ⟨by decide,
    (C7_position_sizing dBuyHalf defaultTradingConfig 50000 (by decide)).2.1,
    ((C7_position_sizing dBuyHalf defaultTradingConfig 50000 (by decide)).2.2 none 7).2.2⟩

end LighterService
